import Mathlib

/-!
Verification of the mods-cn conversation assistant against its
natural-language specification.

Modelling conventions:
* Go strings are modelled as `List Char` (`GoStr`); each element stands for
  one byte of the Go string, so `List.length` corresponds to Go's `len` on
  the byte strings appearing in the claims (all concrete witnesses are
  ASCII, where bytes and characters coincide).
* Go byte slices (`[]byte`) are modelled as `List Nat`.
* Go `error` results are modelled with `Except`/`Option` carrying an
  explicit error datatype.
* SQLite tables and cache directories are modelled as association lists.
-/

abbrev GoStr := List Char

/-- SQLite GLOB matching (anchored, case sensitive), for the fragment of the
GLOB syntax that the program uses: `*` matches any run of characters, `?`
matches one character, every other character matches itself.  (Bracket
classes are not modelled; all patterns built by the program are a literal
followed by `*`, and the theorems below restrict inputs to be free of the
metacharacters.)  This matcher is shared by the conversation index, which
issues `id GLOB in || '*'` queries, and the expiring cache, which globs for
`id || '.*'` file names. -/
def globMatch : List Char → List Char → Bool
  | [], s => s.isEmpty
  | p :: ps, s =>
    if p = '*' then
      s.tails.any (fun t => globMatch ps t)
    else
      match s with
      | [] => false
      | c :: tl => (if p = '?' then true else p = c) && globMatch ps tl

/-- `noGlobMeta s` says the string contains none of the GLOB metacharacters,
so that `s` followed by `*` is a pure prefix pattern. -/
def noGlobMeta (s : GoStr) : Prop :=
  ∀ c ∈ s, c ≠ '*' ∧ c ≠ '?' ∧ c ≠ '['

instance (s : GoStr) : Decidable (noGlobMeta s) := by
  unfold noGlobMeta; infer_instance

lemma globMatch_cons (p : Char) (ps s : List Char) :
    globMatch (p :: ps) s =
      if p = '*' then
        s.tails.any (fun t => globMatch ps t)
      else
        match s with
        | [] => false
        | c :: tl => (if p = '?' then true else p = c) && globMatch ps tl := rfl

lemma globMatch_star_any (s : List Char) : globMatch ['*'] s = true := by
  rw [globMatch_cons, if_pos (rfl : '*' = '*'), List.any_eq_true]
  exact ⟨[], by simp [List.mem_tails], by rfl⟩

/-- A metacharacter-free pattern followed by `*` matches exactly the strings
having the pattern as a prefix. -/
lemma globMatch_prefix_eq (p s : List Char) (hp : noGlobMeta p) :
    globMatch (p ++ ['*']) s = p.isPrefixOf s := by
  induction p generalizing s with
  | nil => simpa using globMatch_star_any s
  | cons c p' ih =>
    have hc := hp c (by simp)
    have hp' : noGlobMeta p' := fun d hd => hp d (by simp [hd])
    rw [List.cons_append, globMatch_cons]
    simp only [if_neg hc.1]
    cases s with
    | nil => simp [List.isPrefixOf]
    | cons d tl =>
      simp only [if_neg hc.2.1, ih tl hp', List.isPrefixOf]
      by_cases hcd : c = d <;> simp [hcd]

/-- Conversation row of the `conversations` table: `id`, `title`,
`updated_at` (abstracted to a number), nullable `api` and `model`. -/
structure Conversation where
  id : GoStr
  title : GoStr
  updatedAt : Nat
  api : Option GoStr
  model : Option GoStr
deriving DecidableEq, Repr

/-- Errors produced by `convoDB.Find`. -/
inductive FindErr where
  | noMatches
  | manyMatches
deriving DecidableEq, Repr

/-- `sha1short = 7`, the short-id length. -/
def sha1short : Nat := 7

/-- `sha1minLen = 4`, the minimum id-prefix length accepted by `Find`. -/
def sha1minLen : Nat := 4

/-- `findByExactTitle`: `SELECT * FROM conversations WHERE title = ?`. -/
def findByExactTitle (rows : List Conversation) (inp : GoStr) :
    List Conversation :=
  rows.filter (fun r => r.title = inp)

/-- `findByIDOrTitle`: `SELECT * FROM conversations WHERE id GLOB ? OR
title = ?`, the first placeholder bound to `inp ++ "*"`. -/
def findByIDOrTitle (rows : List Conversation) (inp : GoStr) :
    List Conversation :=
  rows.filter (fun r => globMatch (inp ++ ['*']) r.id || r.title = inp)

/-- `convoDB.Find`: exact-title lookup for inputs shorter than
`sha1minLen`, id-prefix-or-exact-title lookup otherwise; more than one
match is `errManyMatches`, exactly one match returns that row, zero
matches is `errNoMatches`. -/
def Find (rows : List Conversation) (inp : GoStr) :
    Except FindErr Conversation :=
  let conversations :=
    if inp.length < sha1minLen then findByExactTitle rows inp
    else findByIDOrTitle rows inp
  if conversations.length > 1 then .error .manyMatches
  else
    match conversations with
    | c :: _ => .ok c
    | [] => .error .noMatches

lemma find_match_shape (l : List Conversation) :
    (if l.length > 1 then (Except.error FindErr.manyMatches : Except FindErr Conversation)
     else
       match l with
       | c :: _ => .ok c
       | [] => .error .noMatches) =
      (match l with
       | [] => .error .noMatches
       | [c] => .ok c
       | _ => .error .manyMatches) := by
  match l with
  | [] => simp
  | [c] => simp
  | a :: b :: t => simp [Nat.lt_of_sub_eq_succ]

/-- C1: for every input to `Find`, an input shorter than 4 bytes is looked
up by exact title only, a longer one by id-prefix (`GLOB in*`) or exact
title; zero matches yield the no-matches error, more than one the
many-matches error, and exactly one match returns that row.  (Stated for
inputs free of GLOB metacharacters, for which `id GLOB in*` is exactly
"`in` is a prefix of `id`".) -/
theorem find_semantics (rows : List Conversation) (inp : GoStr)
    (hmeta : noGlobMeta inp) :
    Find rows inp =
      (match (if inp.length < sha1minLen
              then rows.filter (fun r => r.title = inp)
              else rows.filter (fun r => inp.isPrefixOf r.id || r.title = inp)) with
       | [] => .error .noMatches
       | [c] => .ok c
       | _ => .error .manyMatches) := by
  have hfilter :
      (if inp.length < sha1minLen then findByExactTitle rows inp
       else findByIDOrTitle rows inp) =
        (if inp.length < sha1minLen
         then rows.filter (fun r => r.title = inp)
         else rows.filter (fun r => inp.isPrefixOf r.id || r.title = inp)) := by
    by_cases h : inp.length < sha1minLen
    · simp [h, findByExactTitle]
    · simp only [if_neg h, findByIDOrTitle]
      refine List.filter_congr fun r _ => ?_
      rw [globMatch_prefix_eq inp r.id hmeta]
  show (if (if inp.length < sha1minLen then findByExactTitle rows inp
            else findByIDOrTitle rows inp).length > 1
        then Except.error FindErr.manyMatches
        else
          match (if inp.length < sha1minLen then findByExactTitle rows inp
                 else findByIDOrTitle rows inp) with
          | c :: _ => .ok c
          | [] => .error .noMatches) = _
  rw [hfilter, find_match_shape]

/-- Concrete row used by witnesses: spec scenario 4. -/
def convoA : Conversation :=
  { id := "df31ae23ab8bf8f3a64d9f33a864dcf012f5ca46".toList
    title := "msg 1".toList
    updatedAt := 1
    api := some "openai".toList
    model := some "gpt-4o".toList }

/-- Witness for `find_semantics`: looking up the 4-byte id prefix
`df31` in a store holding exactly `convoA`. -/
theorem find_semantics_witness :
    noGlobMeta "df31".toList ∧
      Find [convoA] "df31".toList =
        (match (if ("df31".toList : GoStr).length < sha1minLen
                then [convoA].filter (fun r => r.title = "df31".toList)
                else [convoA].filter
                  (fun r => ("df31".toList : GoStr).isPrefixOf r.id ||
                    r.title = "df31".toList)) with
         | [] => .error .noMatches
         | [c] => .ok c
         | _ => .error .manyMatches) :=
  ⟨by decide, find_semantics [convoA] "df31".toList (by decide)⟩

/-- Outcome of one invocation of `Mods.retry`: either the incoming error is
returned to the update loop (surfaced to the user), or the coordinator
sleeps `waitMs` milliseconds and re-issues the completion input. -/
inductive RetryStep where
  | surface
  | retryAfter (waitMs : Nat)
deriving DecidableEq, Repr

/-- `Mods.retry`: increments `m.retries`; once the incremented counter has
reached `MaxRetries` the incoming error is surfaced, otherwise the
coordinator waits `100ms * 2^retries` (exponential backoff) and retries.
Counters are Go `int`s, modelled as `Int`. -/
def retryStep (maxRetries retries : Int) : Int × RetryStep :=
  if retries + 1 ≥ maxRetries then (retries + 1, .surface)
  else (retries + 1, .retryAfter (100 * 2 ^ (retries + 1).toNat))

/-- The (n+1)-th invocation of `retry` in a run where every attempt fails:
the counter starts at 0 and each invocation threads it through. -/
def retryTrace (maxRetries : Int) : Nat → Int × RetryStep
  | 0 => retryStep maxRetries 0
  | n + 1 => retryStep maxRetries (retryTrace maxRetries n).1

/-- Number of retries actually performed before an error is surfaced, when
every attempt keeps failing (bounded by `fuel` invocations). -/
def retryLoop (maxRetries retries : Int) : Nat → Nat
  | 0 => 0
  | fuel + 1 =>
    match retryStep maxRetries retries with
    | (_, .surface) => 0
    | (r, .retryAfter _) => retryLoop maxRetries r fuel + 1

lemma retryStep_fst (maxRetries retries : Int) :
    (retryStep maxRetries retries).1 = retries + 1 := by
  unfold retryStep
  split <;> rfl

lemma retryTrace_eq (maxRetries : Int) (n : Nat) :
    retryTrace maxRetries n = retryStep maxRetries n := by
  induction n with
  | zero => rfl
  | succ k ih =>
    rw [retryTrace, ih, retryStep_fst]
    norm_num

lemma retryLoop_eq (maxRetries : Int) :
    ∀ (fuel : Nat) (c : Int), 0 ≤ c → maxRetries - 1 - c ≤ (fuel : Int) →
      retryLoop maxRetries c fuel = (maxRetries - 1 - c).toNat := by
  intro fuel
  induction fuel with
  | zero =>
    intro c _ hle
    simp only [retryLoop]
    omega
  | succ fuel ih =>
    intro c hc hle
    by_cases h : c + 1 ≥ maxRetries
    · simp only [retryLoop, retryStep, if_pos h]
      omega
    · simp only [retryLoop, retryStep, if_neg h]
      rw [ih (c + 1) (by omega) (by omega)]
      omega

/-- C2: when every attempt fails with a retryable error, the coordinator
performs `MaxRetries - 1` retries — in particular at most `MaxRetries` —
waiting `100ms * 2^n` before the n-th retry, and the next (the
`(retries performed)+1`-th) error is surfaced to the user. -/
theorem retry_policy (maxRetries : Int) (fuel : Nat)
    (h1 : 1 ≤ maxRetries) (hf : maxRetries.toNat ≤ fuel) :
    retryLoop maxRetries 0 fuel = (maxRetries - 1).toNat ∧
    ((maxRetries - 1).toNat : Int) < maxRetries ∧
    (∀ n : Nat, 1 ≤ n → (n : Int) ≤ maxRetries - 1 →
      (retryTrace maxRetries (n - 1)).2 = .retryAfter (100 * 2 ^ n)) ∧
    (retryTrace maxRetries (maxRetries - 1).toNat).2 = .surface := by
  refine ⟨?_, by omega, ?_, ?_⟩
  · rw [retryLoop_eq maxRetries fuel 0 (by norm_num) (by omega)]
    norm_num
  · intro n hn hle
    rw [retryTrace_eq]
    unfold retryStep
    rw [if_neg (by omega)]
    have he : (((n - 1 : Nat) : Int) + 1).toNat = n := by omega
    simp [he]
  · rw [retryTrace_eq]
    unfold retryStep
    rw [if_pos (by omega)]

/-- Witness for `retry_policy` at `MaxRetries = 3`: exactly two retries are
performed before the third error is surfaced. -/
theorem retry_policy_witness :
    retryLoop 3 0 3 = ((3 : Int) - 1).toNat :=
  (retry_policy 3 3 (by decide) (by decide)).1

namespace proto

/-- Role string constants of the shared protocol package. -/
def RoleSystem : GoStr := "system".toList

def RoleUser : GoStr := "user".toList

def RoleAssistant : GoStr := "assistant".toList

def RoleTool : GoStr := "tool".toList

/-- `proto.Function`: a tool-call function name and its raw JSON argument
bytes. -/
structure Function where
  Name : GoStr
  Arguments : List Nat
deriving DecidableEq, Repr

/-- `proto.ToolCall`: provider-assigned ID, called function, error flag. -/
structure ToolCall where
  ID : GoStr
  Function : Function
  IsError : Bool
deriving DecidableEq, Repr

/-- `proto.Message`: role, content and the tool calls of the turn. -/
structure Message where
  Role : GoStr
  Content : GoStr
  ToolCalls : List ToolCall
deriving DecidableEq, Repr

/-- `proto.ToolCallStatus`: tool name and the optional error of the call
(`error` modelled as its message string). -/
structure ToolCallStatus where
  Name : GoStr
  Err : Option GoStr
deriving DecidableEq, Repr

end proto

/-- Loop body of `lastPrompt`: walks the list front to back, remembering
the content of the latest user-role message with non-empty content. -/
def lastPromptAux (result : GoStr) : List proto.Message → GoStr
  | [] => result
  | msg :: rest =>
    lastPromptAux
      (if msg.Role = proto.RoleUser then
        (if msg.Content = [] then result else msg.Content)
      else result) rest

/-- `lastPrompt`: the content of the last user-role message with non-empty
content, or the empty string. -/
def lastPrompt (messages : List proto.Message) : GoStr :=
  lastPromptAux [] messages

lemma lastPromptAux_spec (acc : GoStr) (ms : List proto.Message) :
    lastPromptAux acc ms =
      ((ms.reverse.find? (fun m =>
          decide (m.Role = proto.RoleUser ∧ m.Content ≠ []))).map
        (fun m => m.Content)).getD acc := by
  induction ms generalizing acc with
  | nil => simp [lastPromptAux]
  | cons m rest ih =>
    rw [lastPromptAux, ih, List.reverse_cons, List.find?_append]
    cases h : rest.reverse.find? (fun m =>
        decide (m.Role = proto.RoleUser ∧ m.Content ≠ [])) with
    | some x => simp [h]
    | none =>
      simp only [h, Option.none_orElse, List.find?]
      by_cases h1 : m.Role = proto.RoleUser
      · by_cases h2 : m.Content = [] <;> simp [h1, h2]
      · simp [h1]

/-- C9: `lastPrompt` returns the content of the last user-role message in
the list that has non-empty content, and the empty string when no such
message exists (in particular on the empty list). -/
theorem lastPrompt_spec (messages : List proto.Message) :
    lastPrompt messages =
      ((messages.reverse.find? (fun m =>
          decide (m.Role = proto.RoleUser ∧ m.Content ≠ []))).map
        (fun m => m.Content)).getD [] ∧
    lastPrompt [] = ([] : GoStr) :=
  ⟨lastPromptAux_spec [] messages, rfl⟩

/-- `ptrOrNil`: returns `nil` for a negative value, otherwise a pointer to
the value.  Generic over Go's `number` constraint (`int64 | float64`);
`float64` is modelled as `ℚ` (no NaN), `int64` as `Int`. -/
def ptrOrNil {T : Type} [Zero T] [LinearOrder T] (t : T) : Option T :=
  if t < 0 then none else some t

lemma ptrOrNil_eq_none {T : Type} [Zero T] [LinearOrder T] (t : T) :
    ptrOrNil t = none ↔ t < 0 := by
  unfold ptrOrNil
  split_ifs with h <;> simp [h]

lemma ptrOrNil_nonneg {T : Type} [Zero T] [LinearOrder T] (t : T)
    (h : 0 ≤ t) : ptrOrNil t = some t := by
  unfold ptrOrNil
  rw [if_neg (not_lt.mpr h)]

/-- The configuration fields that flow into the sampling controls of a
request (`--temp`, `--topp`, `--topk`, `--max-tokens`, `--stop`, user). -/
structure SamplingConfig where
  Temperature : ℚ
  TopP : ℚ
  TopK : Int
  MaxTokens : Int
  User : GoStr
  Stop : List GoStr

/-- `proto.Request`, restricted to the fields relevant to the verified
claims (the `Tools` map and the `ToolCaller` closure are process-level
resources and are not modelled). -/
structure Request where
  Messages : List proto.Message
  API : GoStr
  Model : GoStr
  User : GoStr
  Temperature : Option ℚ
  TopP : Option ℚ
  TopK : Option Int
  Stop : List GoStr
  MaxTokens : Option Int

/-- Request assembly inside `startCompletionCmd`: sampling controls go
through `ptrOrNil`, `MaxTokens` is set only when positive. -/
def startCompletionRequest (cfg : SamplingConfig)
    (messages : List proto.Message) (api model : GoStr) : Request :=
  let request : Request :=
    { Messages := messages
      API := api
      Model := model
      User := cfg.User
      Temperature := ptrOrNil cfg.Temperature
      TopP := ptrOrNil cfg.TopP
      TopK := ptrOrNil cfg.TopK
      Stop := cfg.Stop
      MaxTokens := none }
  if cfg.MaxTokens > 0 then { request with MaxTokens := some cfg.MaxTokens }
  else request

/-- C10: a negative configured sampling control (Temperature, TopP, TopK)
produces a `nil` pointer in the built request — the parameter is unset —
and a non-negative one produces a pointer holding exactly the configured
value. -/
theorem sampling_controls (cfg : SamplingConfig)
    (messages : List proto.Message) (api model : GoStr) :
    ((startCompletionRequest cfg messages api model).Temperature = none ↔
      cfg.Temperature < 0) ∧
    (0 ≤ cfg.Temperature →
      (startCompletionRequest cfg messages api model).Temperature =
        some cfg.Temperature) ∧
    ((startCompletionRequest cfg messages api model).TopP = none ↔
      cfg.TopP < 0) ∧
    (0 ≤ cfg.TopP →
      (startCompletionRequest cfg messages api model).TopP = some cfg.TopP) ∧
    ((startCompletionRequest cfg messages api model).TopK = none ↔
      cfg.TopK < 0) ∧
    (0 ≤ cfg.TopK →
      (startCompletionRequest cfg messages api model).TopK =
        some cfg.TopK) := by
  have hT : (startCompletionRequest cfg messages api model).Temperature =
      ptrOrNil cfg.Temperature := by
    unfold startCompletionRequest
    split <;> rfl
  have hP : (startCompletionRequest cfg messages api model).TopP =
      ptrOrNil cfg.TopP := by
    unfold startCompletionRequest
    split <;> rfl
  have hK : (startCompletionRequest cfg messages api model).TopK =
      ptrOrNil cfg.TopK := by
    unfold startCompletionRequest
    split <;> rfl
  exact ⟨hT ▸ ptrOrNil_eq_none _, fun h => hT ▸ ptrOrNil_nonneg _ h,
    hP ▸ ptrOrNil_eq_none _, fun h => hP ▸ ptrOrNil_nonneg _ h,
    hK ▸ ptrOrNil_eq_none _, fun h => hK ▸ ptrOrNil_nonneg _ h⟩

/-- Concrete configuration for the `sampling_controls` witness. -/
def cfgW : SamplingConfig :=
  { Temperature := -1
    TopP := 1 / 2
    TopK := -3
    MaxTokens := 0
    User := []
    Stop := [] }

/-- Witness for `sampling_controls`: a negative temperature is unset while
a non-negative TopP is passed through exactly. -/
theorem sampling_controls_witness :
    (startCompletionRequest cfgW [] [] []).Temperature = none ∧
    (startCompletionRequest cfgW [] [] []).TopP = some (1 / 2 : ℚ) := by
  have h := sampling_controls cfgW [] [] []
  exact ⟨h.1.mpr (by norm_num [cfgW]), h.2.2.2.1 (by norm_num [cfgW])⟩

/-- `stream.CallTool`: invokes the caller and packages the result into a
Tool-role message paired with a tool-call status.  The caller returns
`(content, error)`; when the content is empty and an error is present, the
error text becomes the content. -/
def CallTool (id name : GoStr) (data : List Nat)
    (caller : GoStr → List Nat → GoStr × Option GoStr) :
    proto.Message × proto.ToolCallStatus :=
  let content := (caller name data).1
  let err := (caller name data).2
  let content := if content = [] ∧ err ≠ none then err.getD [] else content
  (⟨proto.RoleTool, content, [⟨id, ⟨name, data⟩, err.isSome⟩]⟩, ⟨name, err⟩)

/-- A caller that returns non-empty content together with an error. -/
def callerPartialErr : GoStr → List Nat → GoStr × Option GoStr :=
  fun _ _ => ("partial".toList, some "boom".toList)

/-- Counterexample to C7 as stated: when the caller returns non-empty
content alongside an error, the error text is NOT folded into the message
content — the content stays at what the caller produced and the error text
does not even occur in it. -/
theorem calltool_error_not_folded :
    (CallTool "i1".toList "srv_t".toList [] callerPartialErr).1.Content =
      "partial".toList ∧
    (CallTool "i1".toList "srv_t".toList [] callerPartialErr).2.Err =
      some "boom".toList ∧
    ¬ List.IsInfix "boom".toList
      (CallTool "i1".toList "srv_t".toList [] callerPartialErr).1.Content := by
  refine ⟨rfl, rfl, ?_⟩
  decide

/-- C7 (amended): `CallTool` returns a Tool-role message whose single tool
call carries the given id, name and argument bytes, with `IsError` set
exactly when the caller errored; the status carries the name and the
caller's error; and the error text is folded into the message content
exactly when the caller returned empty content. -/
theorem calltool_spec (id name : GoStr) (data : List Nat)
    (caller : GoStr → List Nat → GoStr × Option GoStr) :
    (CallTool id name data caller).1.Role = proto.RoleTool ∧
    (CallTool id name data caller).1.ToolCalls =
      [⟨id, ⟨name, data⟩, (caller name data).2.isSome⟩] ∧
    (CallTool id name data caller).2 = ⟨name, (caller name data).2⟩ ∧
    ((caller name data).1 ≠ [] →
      (CallTool id name data caller).1.Content = (caller name data).1) ∧
    ((caller name data).1 = [] → ∀ e, (caller name data).2 = some e →
      (CallTool id name data caller).1.Content = e) ∧
    ((caller name data).1 = [] → (caller name data).2 = none →
      (CallTool id name data caller).1.Content = []) := by
  refine ⟨rfl, rfl, rfl, ?_, ?_, ?_⟩
  · intro h
    unfold CallTool
    simp [h]
  · intro h e he
    unfold CallTool
    simp [h, he]
  · intro h he
    unfold CallTool
    simp [h, he]

/-- Witness for `calltool_spec` at a concrete erroring caller. -/
theorem calltool_spec_witness :
    (CallTool "i1".toList "srv_t".toList [] callerPartialErr).1.Role =
      proto.RoleTool :=
  (calltool_spec "i1".toList "srv_t".toList [] callerPartialErr).1

/-- `strings.Cut` on a single-character separator: splits around the first
occurrence; `none` models the not-found (`ok = false`) case. -/
def stringsCut (sep : Char) : GoStr → Option (GoStr × GoStr)
  | [] => none
  | c :: rest =>
    if c = sep then some ([], rest)
    else (stringsCut sep rest).map (fun p => (c :: p.1, p.2))

/-- `isMCPEnabled`: a server is enabled unless the disable list contains
the wildcard entry or the server's own name. -/
def isMCPEnabled (mcpDisable : List GoStr) (name : GoStr) : Bool :=
  !(mcpDisable.contains "*".toList) && !(mcpDisable.contains name)

/-- Errors of `toolCall` before any dispatch happens. -/
inductive McpErr where
  | invalidToolName (name : GoStr)
  | invalidServer (sname : GoStr)
  | serverDisabled (sname : GoStr)
deriving DecidableEq, Repr

/-- `toolCall`: splits the wire name on the first underscore into server
and tool, validates that the server is configured and enabled, and only
then dispatches.  The model stops at the dispatch decision and returns the
(server, tool) pair the MCP client would be invoked with; every error path
happens before any client is started. -/
def toolCall (servers : List GoStr) (mcpDisable : List GoStr)
    (name : GoStr) : Except McpErr (GoStr × GoStr) :=
  match stringsCut '_' name with
  | none => .error (.invalidToolName name)
  | some (sname, tool) =>
    if sname ∉ servers then .error (.invalidServer sname)
    else if ¬ isMCPEnabled mcpDisable sname then
      .error (.serverDisabled sname)
    else .ok (sname, tool)

lemma stringsCut_underscore_free (s t : GoStr) (h : '_' ∉ s) :
    stringsCut '_' (s ++ '_' :: t) = some (s, t) := by
  induction s with
  | nil => simp [stringsCut]
  | cons c s' ih =>
    have hc : c ≠ '_' := fun hcx => h (hcx ▸ List.mem_cons_self c s')
    have h' : '_' ∉ s' := fun hm => h (List.mem_cons_of_mem c hm)
    rw [List.cons_append, stringsCut, if_neg hc, ih h']
    rfl

lemma stringsCut_not_found (s : GoStr) (h : '_' ∉ s) :
    stringsCut '_' s = none := by
  induction s with
  | nil => rfl
  | cons c s' ih =>
    have hc : c ≠ '_' := fun hcx => h (hcx ▸ List.mem_cons_self c s')
    have h' : '_' ∉ s' := fun hm => h (List.mem_cons_of_mem c hm)
    rw [stringsCut, if_neg hc, ih h']
    rfl

/-- C8: `toolCall` on a wire name `s_t` (server `s` free of underscores)
dispatches to server `s` and tool `t` when `s` is configured and enabled;
an unknown server, a disabled server, or a name without an underscore
yields an error without dispatching. -/
theorem toolCall_dispatch (servers mcpDisable : List GoStr) (s t : GoStr)
    (hs : '_' ∉ s) :
    (s ∈ servers → isMCPEnabled mcpDisable s = true →
      toolCall servers mcpDisable (s ++ '_' :: t) = .ok (s, t)) ∧
    (s ∉ servers →
      toolCall servers mcpDisable (s ++ '_' :: t) =
        .error (.invalidServer s)) ∧
    (s ∈ servers → isMCPEnabled mcpDisable s = false →
      toolCall servers mcpDisable (s ++ '_' :: t) =
        .error (.serverDisabled s)) ∧
    (∀ nm : GoStr, '_' ∉ nm →
      toolCall servers mcpDisable nm = .error (.invalidToolName nm)) := by
  refine ⟨?_, ?_, ?_, ?_⟩
  · intro h1 h2
    unfold toolCall
    rw [stringsCut_underscore_free s t hs]
    simp [h1, h2]
  · intro h1
    unfold toolCall
    rw [stringsCut_underscore_free s t hs]
    simp [h1]
  · intro h1 h2
    unfold toolCall
    rw [stringsCut_underscore_free s t hs]
    simp [h1, h2]
  · intro nm hnm
    unfold toolCall
    rw [stringsCut_not_found nm hnm]

/-- Witness for `toolCall_dispatch`: wire name `fs_read_file` dispatches
to server `fs`, tool `read_file` (the tool part may itself contain
underscores). -/
theorem toolCall_dispatch_witness :
    toolCall ["fs".toList] [] ("fs".toList ++ '_' :: "read_file".toList) =
      .ok ("fs".toList, "read_file".toList) :=
  (toolCall_dispatch ["fs".toList] [] "fs".toList "read_file".toList
    (by decide)).1 (by decide) (by decide)

/-- ASCII apostrophe. -/
def apos : Char := Char.ofNat 39

/-- Leading literal of `tokenErrRe`. -/
def tokenErrLit1 : GoStr :=
  "This model".toList ++ [apos] ++ "s maximum context length is ".toList

/-- Literal following each token count in `tokenErrRe`. -/
def tokenErrLit2 : GoStr := " tokens".toList

/-- Literal between the regex's dot and the second count. -/
def tokenErrLit3 : GoStr := " However, your messages resulted in ".toList

/-- Consume an exact literal prefix, returning the rest. -/
def matchLit : GoStr → GoStr → Option GoStr
  | [], s => some s
  | _ :: _, [] => none
  | c :: ls, d :: s => if c = d then matchLit ls s else none

/-- Maximal leading digit run and the rest (the greedy `\d+`, which cannot
backtrack here because each run is followed by a non-digit literal). -/
def takeDigits : GoStr → GoStr × GoStr
  | [] => ([], [])
  | c :: s =>
    if c.isDigit then
      let p := takeDigits s
      (c :: p.1, p.2)
    else ([], c :: s)

/-- Decimal value of a digit run (`strconv.Atoi` on a `\d+` submatch). -/
def digitsToNat (ds : GoStr) : Nat :=
  ds.foldl (fun acc c => acc * 10 + (c.toNat - 48)) 0

/-- Try to match `tokenErrRe` at the current position: the leading
literal, a digit run, ` tokens`, one arbitrary character (the regex dot),
the `However…` literal, a second digit run, ` tokens`. -/
def matchTokenErrAt (s : GoStr) : Option (Nat × Nat) :=
  (matchLit tokenErrLit1 s).bind fun s1 =>
    let p1 := takeDigits s1
    if p1.1 = [] then none
    else
      (matchLit tokenErrLit2 p1.2).bind fun s2 =>
        match s2 with
        | [] => none
        | _ :: s3 =>
          (matchLit tokenErrLit3 s3).bind fun s4 =>
            let p2 := takeDigits s4
            if p2.1 = [] then none
            else
              (matchLit tokenErrLit2 p2.2).map fun _ =>
                (digitsToNat p1.1, digitsToNat p2.1)

/-- `tokenErrRe.FindStringSubmatch`: leftmost match of the pattern,
returning the two parsed token counts. -/
def findTokenErr (s : GoStr) : Option (Nat × Nat) :=
  match matchTokenErrAt s with
  | some r => some r
  | none =>
    match s with
    | [] => none
    | _ :: tl => findTokenErr tl

/-- `cutPrompt`: on a parsed context-length error with
`current >= max`, drops the last `10 + (current-max)*4` bytes of the
prompt — but only when the prompt is strictly longer than that amount;
otherwise (and on any parse failure) the prompt is returned unchanged. -/
def cutPrompt (msg prompt : GoStr) : GoStr :=
  match findTokenErr msg with
  | none => prompt
  | some (maxt, current) =>
    if maxt > current then prompt
    else
      if prompt.length > 10 + (current - maxt) * 4 then
        prompt.take (prompt.length - (10 + (current - maxt) * 4))
      else prompt

/-- The provider error message used in the C3 counterexample and witness:
maximum 4096 tokens, 4097 tokens used, so the reduction amount is
`(4097-4096)*4 + 10 = 14` bytes. -/
def ctxMsgW : GoStr :=
  tokenErrLit1 ++ "4096".toList ++
    " tokens. However, your messages resulted in 4097 tokens".toList

/-- Counterexample to C3 as stated: with a 2-byte prompt and a reduction
amount of 14, the code returns the prompt unchanged (length 2), not a
prompt of length `old - ((current-max)*4 + 10)` — that value is negative,
and clamping it at zero still disagrees with the code. -/
theorem cutPrompt_counterexample :
    cutPrompt ctxMsgW "ab".toList = "ab".toList ∧
    findTokenErr ctxMsgW = some (4096, 4097) ∧
    ((cutPrompt ctxMsgW "ab".toList).length : Int) ≠
      (("ab".toList : GoStr).length : Int) - ((4097 - 4096) * 4 + 10) ∧
    (cutPrompt ctxMsgW "ab".toList).length ≠ 0 := by
  refine ⟨rfl, rfl, by decide, by decide⟩

/-- C3 (amended): after a context-length retry the new prompt is the old
one with the last `(current-max)*4 + 10` bytes removed whenever the prompt
is strictly longer than that amount; a shorter prompt is passed through
unchanged, so the length never goes negative and never grows. -/
theorem cutPrompt_spec (msg prompt : GoStr) (maxt current : Nat)
    (hfind : findTokenErr msg = some (maxt, current))
    (hle : maxt ≤ current) :
    (prompt.length > (current - maxt) * 4 + 10 →
      (cutPrompt msg prompt).length =
        prompt.length - ((current - maxt) * 4 + 10)) ∧
    (prompt.length ≤ (current - maxt) * 4 + 10 →
      cutPrompt msg prompt = prompt) ∧
    (cutPrompt msg prompt).length ≤ prompt.length := by
  unfold cutPrompt
  rw [hfind]
  dsimp only
  rw [if_neg (not_lt.mpr hle)]
  have hcomm : 10 + (current - maxt) * 4 = (current - maxt) * 4 + 10 := by
    omega
  rw [hcomm]
  refine ⟨?_, ?_, ?_⟩
  · intro h
    rw [if_pos h, List.length_take]
    omega
  · intro h
    rw [if_neg (not_lt.mpr h)]
  · split
    · rw [List.length_take]
      omega
    · exact le_refl _

/-- Witness for `cutPrompt_spec`: a 20-byte prompt loses exactly 14
bytes. -/
theorem cutPrompt_spec_witness :
    ("aaaaaaaaaaaaaaaaaaaa".toList : GoStr).length >
      (4097 - 4096) * 4 + 10 ∧
    (cutPrompt ctxMsgW "aaaaaaaaaaaaaaaaaaaa".toList).length =
      ("aaaaaaaaaaaaaaaaaaaa".toList : GoStr).length -
        ((4097 - 4096) * 4 + 10) :=
  ⟨by decide,
    (cutPrompt_spec ctxMsgW "aaaaaaaaaaaaaaaaaaaa".toList 4096 4097 rfl
      (by decide)).1 (by decide)⟩

/-- Tokens of the modelled gob stream: the encoding is abstracted to a
stream of tagged scalars (lengths/ints, characters, booleans), faithful to
gob in that each value is written as a self-delimiting sequence and read
back by a parser that fails on shape mismatch. -/
inductive Tok where
  | tn (n : Nat)
  | tc (c : Char)
  | tb (b : Bool)
deriving DecidableEq, Repr

abbrev Blob := List Tok

/-- The pre-tool-calls message record (`noCallMessage`): content and role
only. -/
structure NoCallMessage where
  Content : GoStr
  Role : GoStr
deriving DecidableEq, Repr

def encStr (s : GoStr) : Blob := .tn s.length :: s.map .tc

def encBytes (b : List Nat) : Blob := .tn b.length :: b.map .tn

def encBool (b : Bool) : Blob := [.tb b]

def encFunction (f : proto.Function) : Blob :=
  encStr f.Name ++ encBytes f.Arguments

def encToolCall (t : proto.ToolCall) : Blob :=
  encStr t.ID ++ encFunction t.Function ++ encBool t.IsError

def encMessage (m : proto.Message) : Blob :=
  encStr m.Role ++ encStr m.Content ++
    (.tn m.ToolCalls.length :: (m.ToolCalls.map encToolCall).flatten)

/-- gob encoding of a `[]proto.Message` value (the new schema, marked with
leading tag 1 the way a gob stream carries its type descriptor). -/
def encodeMessages (ms : List proto.Message) : Blob :=
  .tn 1 :: .tn ms.length :: (ms.map encMessage).flatten

def encNoCall (m : NoCallMessage) : Blob := encStr m.Content ++ encStr m.Role

/-- gob encoding of a `[]noCallMessage` value (the old schema, tag 0). -/
def encodeNoCalls (ms : List NoCallMessage) : Blob :=
  .tn 0 :: .tn ms.length :: (ms.map encNoCall).flatten

def parseChars : Nat → Blob → Option (GoStr × Blob)
  | 0, b => some ([], b)
  | k + 1, .tc c :: b => (parseChars k b).map (fun p => (c :: p.1, p.2))
  | _ + 1, _ => none

def parseStr : Blob → Option (GoStr × Blob)
  | .tn n :: b => parseChars n b
  | _ => none

def parseNats : Nat → Blob → Option (List Nat × Blob)
  | 0, b => some ([], b)
  | k + 1, .tn n :: b => (parseNats k b).map (fun p => (n :: p.1, p.2))
  | _ + 1, _ => none

def parseBytes : Blob → Option (List Nat × Blob)
  | .tn n :: b => parseNats n b
  | _ => none

def parseBool : Blob → Option (Bool × Blob)
  | .tb v :: b => some (v, b)
  | _ => none

def parseFunction (b : Blob) : Option (proto.Function × Blob) :=
  (parseStr b).bind fun p1 =>
    (parseBytes p1.2).map fun p2 => (⟨p1.1, p2.1⟩, p2.2)

def parseToolCall (b : Blob) : Option (proto.ToolCall × Blob) :=
  (parseStr b).bind fun p1 =>
    (parseFunction p1.2).bind fun p2 =>
      (parseBool p2.2).map fun p3 => (⟨p1.1, p2.1, p3.1⟩, p3.2)

def parseN {α : Type} (p : Blob → Option (α × Blob)) :
    Nat → Blob → Option (List α × Blob)
  | 0, b => some ([], b)
  | k + 1, b =>
    (p b).bind fun x =>
      (parseN p k x.2).map fun xs => (x.1 :: xs.1, xs.2)

def parseMessage (b : Blob) : Option (proto.Message × Blob) :=
  (parseStr b).bind fun p1 =>
    (parseStr p1.2).bind fun p2 =>
      match p2.2 with
      | .tn n :: rest =>
        (parseN parseToolCall n rest).map fun p3 => (⟨p1.1, p2.1, p3.1⟩, p3.2)
      | _ => none

def parseNoCall (b : Blob) : Option (NoCallMessage × Blob) :=
  (parseStr b).bind fun p1 =>
    (parseStr p1.2).map fun p2 => (⟨p1.1, p2.1⟩, p2.2)

/-- gob decode of a blob as `[]proto.Message`: requires the new-schema tag
and full consumption of the stream. -/
def decodeMessages (b : Blob) : Option (List proto.Message) :=
  match b with
  | .tn 1 :: .tn n :: rest =>
    (parseN parseMessage n rest).bind fun p =>
      if p.2 = [] then some p.1 else none
  | _ => none

/-- gob decode of a blob as `[]noCallMessage` (old schema). -/
def decodeNoCalls (b : Blob) : Option (List NoCallMessage) :=
  match b with
  | .tn 0 :: .tn n :: rest =>
    (parseN parseNoCall n rest).bind fun p =>
      if p.2 = [] then some p.1 else none
  | _ => none

lemma parseChars_enc (s : GoStr) (r : Blob) :
    parseChars s.length (s.map .tc ++ r) = some (s, r) := by
  induction s with
  | nil => rfl
  | cons c tl ih => simp [parseChars, ih]

lemma parseStr_enc (s : GoStr) (r : Blob) :
    parseStr (encStr s ++ r) = some (s, r) := by
  rw [encStr, List.cons_append, parseStr]
  exact parseChars_enc s r

lemma parseNats_enc (b : List Nat) (r : Blob) :
    parseNats b.length (b.map .tn ++ r) = some (b, r) := by
  induction b with
  | nil => rfl
  | cons c tl ih => simp [parseNats, ih]

lemma parseBytes_enc (b : List Nat) (r : Blob) :
    parseBytes (encBytes b ++ r) = some (b, r) := by
  rw [encBytes, List.cons_append, parseBytes]
  exact parseNats_enc b r

lemma parseBool_enc (v : Bool) (r : Blob) :
    parseBool (encBool v ++ r) = some (v, r) := rfl

lemma parseFunction_enc (f : proto.Function) (r : Blob) :
    parseFunction (encFunction f ++ r) = some (f, r) := by
  rw [encFunction, parseFunction, List.append_assoc, parseStr_enc]
  simp [parseBytes_enc]

lemma parseToolCall_enc (t : proto.ToolCall) (r : Blob) :
    parseToolCall (encToolCall t ++ r) = some (t, r) := by
  rw [encToolCall, parseToolCall, List.append_assoc, List.append_assoc,
    parseStr_enc]
  simp [parseFunction_enc, parseBool_enc]

lemma parseN_enc {α : Type} (p : Blob → Option (α × Blob))
    (enc : α → Blob) (henc : ∀ x r, p (enc x ++ r) = some (x, r))
    (xs : List α) (r : Blob) :
    parseN p xs.length ((xs.map enc).flatten ++ r) = some (xs, r) := by
  induction xs with
  | nil => rfl
  | cons x tl ih =>
    rw [List.length_cons, List.map_cons, List.flatten_cons, parseN,
      List.append_assoc, henc]
    simp [ih]

lemma parseMessage_enc (m : proto.Message) (r : Blob) :
    parseMessage (encMessage m ++ r) = some (m, r) := by
  have h1 : encMessage m ++ r =
      encStr m.Role ++ (encStr m.Content ++
        (.tn m.ToolCalls.length ::
          ((m.ToolCalls.map encToolCall).flatten ++ r))) := by
    simp [encMessage]
  rw [h1, parseMessage, parseStr_enc]
  simp only [Option.bind_eq_bind, Option.some_bind]
  rw [parseStr_enc]
  simp only [Option.some_bind]
  rw [parseN_enc parseToolCall encToolCall parseToolCall_enc]
  rfl

lemma parseNoCall_enc (m : NoCallMessage) (r : Blob) :
    parseNoCall (encNoCall m ++ r) = some (m, r) := by
  rw [encNoCall, parseNoCall, List.append_assoc, parseStr_enc]
  simp [parseStr_enc]

lemma decodeMessages_enc (ms : List proto.Message) :
    decodeMessages (encodeMessages ms) = some ms := by
  rw [encodeMessages, decodeMessages]
  have h := parseN_enc parseMessage encMessage parseMessage_enc ms []
  rw [List.append_nil] at h
  simp [h]

/-- A cache directory: file name to file content. -/
abbrev CacheDir := List (GoStr × Blob)

/-- Read a file's content. -/
def dirGet (d : CacheDir) (name : GoStr) : Option Blob :=
  (d.find? (fun e => e.1 = name)).map (fun e => e.2)

/-- `os.Create` + write: create or truncate the named file. -/
def dirSet (d : CacheDir) (name : GoStr) (b : Blob) : CacheDir :=
  (name, b) :: d.filter (fun e => e.1 ≠ name)

/-- `os.Remove` of a present file. -/
def dirRemove (d : CacheDir) (name : GoStr) : CacheDir :=
  d.filter (fun e => e.1 ≠ name)

lemma dirGet_set (d : CacheDir) (name : GoStr) (b : Blob) :
    dirGet (dirSet d name b) name = some b := by
  simp [dirGet, dirSet, List.find?]

lemma dirGet_remove (d : CacheDir) (name : GoStr) :
    dirGet (dirRemove d name) name = none := by
  unfold dirGet dirRemove
  induction d with
  | nil => rfl
  | cons e d' ih =>
    by_cases h : e.1 = name <;>
      simp [List.filter_cons, List.find?_cons, h, ih]

/-- Errors produced by the base `Cache` and the conversation decode. -/
inductive CacheErr where
  | invalidID
  | notFound
  | decodeFailed
deriving DecidableEq, Repr

/-- Conversation-cache file extension (`.gob`). -/
def cacheExt : GoStr := ".gob".toList

/-- `decode` in the conversation cache: try the current `[]Message`
schema; if that decoder fails, re-decode the buffered bytes as the
pre-tool-calls `[]noCallMessage` record and upgrade by appending role and
content with empty tool calls. -/
def cacheDecode (b : Blob) (messages : List proto.Message) :
    Except CacheErr (List proto.Message) :=
  match decodeMessages b with
  | some ms => .ok ms
  | none =>
    match decodeNoCalls b with
    | some ncs =>
      .ok (messages ++ ncs.map (fun nc =>
        { Role := nc.Role, Content := nc.Content, ToolCalls := [] }))
    | none => .error .decodeFailed

/-- `Conversations.Read`: blank ids are rejected, a missing file is
not-found, otherwise the blob is decoded into the caller's message
list. -/
def conversationsRead (d : CacheDir) (id : GoStr)
    (messages : List proto.Message) : Except CacheErr (List proto.Message) :=
  if id = [] then .error .invalidID
  else
    match dirGet d (id ++ cacheExt) with
    | none => .error .notFound
    | some b => cacheDecode b messages

/-- `Conversations.Write`: blank ids are rejected, otherwise the encoded
message list is stored under `<id>.gob`. -/
def conversationsWrite (d : CacheDir) (id : GoStr)
    (messages : List proto.Message) : Except CacheErr CacheDir :=
  if id = [] then .error .invalidID
  else .ok (dirSet d (id ++ cacheExt) (encodeMessages messages))

/-- `Cache.Delete` (used by `Conversations.Delete`): blank ids are
rejected; `os.Remove` fails when the file is absent. -/
def cacheDelete (d : CacheDir) (id : GoStr) : Except CacheErr CacheDir :=
  if id = [] then .error .invalidID
  else
    match dirGet d (id ++ cacheExt) with
    | none => .error .notFound
    | some _ => .ok (dirRemove d (id ++ cacheExt))

/-- C4: reading back from the conversation cache what was just written
under the same (non-blank) id returns the message list unchanged, the
blob being the serialized thread stored in the file `<id>.gob`. -/
theorem conversation_cache_roundtrip (d : CacheDir) (id : GoStr)
    (ms init : List proto.Message) (h : id ≠ []) :
    conversationsWrite d id ms =
      .ok (dirSet d (id ++ cacheExt) (encodeMessages ms)) ∧
    conversationsRead (dirSet d (id ++ cacheExt) (encodeMessages ms)) id
      init = .ok ms := by
  constructor
  · unfold conversationsWrite
    rw [if_neg h]
  · unfold conversationsRead
    rw [if_neg h, dirGet_set]
    dsimp only
    unfold cacheDecode
    rw [decodeMessages_enc]

/-- Witness for `conversation_cache_roundtrip`: a one-message thread under
id `abc` written to an empty directory. -/
theorem conversation_cache_roundtrip_witness :
    conversationsWrite [] "abc".toList
        [⟨proto.RoleUser, "hi".toList, []⟩] =
      .ok (dirSet [] ("abc".toList ++ cacheExt)
        (encodeMessages [⟨proto.RoleUser, "hi".toList, []⟩])) ∧
    conversationsRead
        (dirSet [] ("abc".toList ++ cacheExt)
          (encodeMessages [⟨proto.RoleUser, "hi".toList, []⟩]))
        "abc".toList [] =
      .ok [⟨proto.RoleUser, "hi".toList, []⟩] :=
  conversation_cache_roundtrip [] "abc".toList
    [⟨proto.RoleUser, "hi".toList, []⟩] [] (by decide)

/-- `convoDB.Delete`: unconditional SQL delete of the row with the given
id; succeeds also when zero rows match. -/
def dbDelete (rows : List Conversation) (id : GoStr) : List Conversation :=
  rows.filter (fun r => r.id ≠ id)

/-- `deleteConversation`: deletes the index row, then the cached blob.  An
error from the blob delete is returned as the operation's error — the row
deletion has already taken effect at that point. -/
def deleteConversation (rows : List Conversation) (d : CacheDir)
    (id : GoStr) : (List Conversation × CacheDir) × Option CacheErr :=
  let rowsAfter := dbDelete rows id
  match cacheDelete d id with
  | .error e => ((rowsAfter, d), some e)
  | .ok dirAfter => ((rowsAfter, dirAfter), none)

/-- Concrete row for the C5 counterexample and witness. -/
def convoB : Conversation :=
  { id := "e3b0c44298fc1c149afbf4c8996fb92427ae41e4".toList
    title := "t1".toList
    updatedAt := 2
    api := none
    model := none }

/-- Counterexample to C5 as stated: with the row present but no cached
blob, the blob delete fails and `deleteConversation` returns that error —
the blob delete is NOT best-effort — even though the row was already
removed. -/
theorem delete_blob_failure_fails :
    (deleteConversation [convoB] [] convoB.id).2 =
      some CacheErr.notFound ∧
    (deleteConversation [convoB] [] convoB.id).1.1 = [] := by
  constructor
  · rfl
  · decide

/-- C5 (amended): deleting an id removes the row from the index, so that a
subsequent `Find` of the id reports no matches (when no other row matches
it) and a cache `Read` of the id reports not-found; the operation succeeds
exactly when the blob file existed — a failure to remove the blob makes
`deleteConversation` return an error instead of being best-effort, the row
delete having already happened. -/
theorem delete_consistency (rows : List Conversation) (d : CacheDir)
    (id : GoStr) (hid : id ≠ [])
    (hlen : ¬ id.length < sha1minLen)
    (hnm : ∀ r ∈ rows, r.id ≠ id →
      globMatch (id ++ ['*']) r.id = false ∧ r.title ≠ id) :
    (deleteConversation rows d id).1.1 = dbDelete rows id ∧
    ((deleteConversation rows d id).2 = none ↔
      (dirGet d (id ++ cacheExt)).isSome = true) ∧
    Find (deleteConversation rows d id).1.1 id = .error .noMatches ∧
    conversationsRead (deleteConversation rows d id).1.2 id [] =
      .error .notFound := by
  have hrows : (deleteConversation rows d id).1.1 = dbDelete rows id := by
    unfold deleteConversation
    cases h : cacheDelete d id <;> simp [h]
  have hempty : findByIDOrTitle (dbDelete rows id) id = [] := by
    unfold findByIDOrTitle dbDelete
    rw [List.filter_eq_nil_iff]
    intro a ha
    rw [List.mem_filter] at ha
    have hne : a.id ≠ id := by simpa using ha.2
    have hm := hnm a ha.1 hne
    simp [hm.1, hm.2]
  refine ⟨hrows, ?_, ?_, ?_⟩
  · unfold deleteConversation cacheDelete
    rw [if_neg hid]
    cases hg : dirGet d (id ++ cacheExt) <;> simp [hg]
  · rw [hrows]
    show (if (if id.length < sha1minLen
              then findByExactTitle (dbDelete rows id) id
              else findByIDOrTitle (dbDelete rows id) id).length > 1
          then Except.error FindErr.manyMatches
          else
            match (if id.length < sha1minLen
                   then findByExactTitle (dbDelete rows id) id
                   else findByIDOrTitle (dbDelete rows id) id) with
            | c :: _ => .ok c
            | [] => .error .noMatches) = _
    rw [if_neg hlen, hempty]
    rfl
  · unfold deleteConversation cacheDelete
    rw [if_neg hid]
    cases hg : dirGet d (id ++ cacheExt) with
    | none =>
      dsimp only
      unfold conversationsRead
      rw [if_neg hid, hg]
    | some b =>
      dsimp only
      unfold conversationsRead
      rw [if_neg hid, dirGet_remove]

/-- Witness for `delete_consistency`: deleting `convoB` when its blob is
present leaves the index without any match for its id. -/
theorem delete_consistency_witness :
    Find (deleteConversation [convoB]
        (dirSet [] (convoB.id ++ cacheExt) (encodeMessages []))
        convoB.id).1.1 convoB.id = .error .noMatches :=
  (delete_consistency [convoB]
    (dirSet [] (convoB.id ++ cacheExt) (encodeMessages []))
    convoB.id (by decide) (by decide) (by decide)).2.2.1

/-- `strings.Split` on a single-character separator (always returns at
least one part). -/
def splitOn (sep : Char) : GoStr → List GoStr
  | [] => [[]]
  | c :: rest =>
    if c = sep then [] :: splitOn sep rest
    else
      match splitOn sep rest with
      | [] => [[c]]
      | p :: ps => (c :: p) :: ps

/-- `strconv.ParseInt(s, 10, 64)` restricted to the non-negative
timestamps the expiring cache writes (no sign handling, overflow not
modelled). -/
def parseDecimalNat (s : GoStr) : Option Nat :=
  if s = [] then none
  else if s.all (fun c => c.isDigit) then some (digitsToNat s) else none

/-- `getCacheFilename`: `<id>.<expiresAtUnix>`. -/
def expFileName (id : GoStr) (expiresAt : Nat) : GoStr :=
  id ++ '.' :: Nat.toDigits 10 expiresAt

/-- Byte-wise lexicographic order on file names (`filepath.Glob` returns
its matches sorted). -/
def strLtB : GoStr → GoStr → Bool
  | [], [] => false
  | [], _ :: _ => true
  | _ :: _, [] => false
  | a :: as, b :: bs => if a = b then strLtB as bs else decide (a.toNat < b.toNat)

/-- First (lexicographically least) directory entry matching a glob
pattern — `matches[0]` of `filepath.Glob`. -/
def globFirstMatch (d : CacheDir) (pat : GoStr) : Option (GoStr × Blob) :=
  (d.filter (fun e => globMatch pat e.1)).foldl
    (fun acc e =>
      match acc with
      | none => some e
      | some m => if strLtB e.1 m.1 then some e else some m) none

/-- Errors of the expiring cache.  Note: there is no invalid-id error —
the expiring cache performs no blank-id check at all. -/
inductive ExpErr where
  | noItem
  | badFilename
  | badTimestamp
  | notExist
deriving DecidableEq, Repr

/-- `ExpiringCache.Read`: glob for `<id>.*`, take the first match, split
its name on dots, parse the expiry; expired entries are removed and
reported as not-found.  Returns the result and the possibly changed
directory. -/
def expRead (d : CacheDir) (now : Nat) (id : GoStr) :
    Except ExpErr Blob × CacheDir :=
  match globFirstMatch d (id ++ '.' :: ['*']) with
  | none => (.error .noItem, d)
  | some (name, b) =>
    let parts := splitOn '.' name
    if parts.length ≠ 2 then (.error .badFilename, d)
    else
      match parseDecimalNat (parts.getD 1 []) with
      | none => (.error .badTimestamp, d)
      | some expiresAt =>
        if expiresAt < now then (.error .notExist, dirRemove d name)
        else (.ok b, d)

/-- `ExpiringCache.Write`: removes every file matching `<id>.*`, then
creates `<id>.<expiresAt>`. -/
def expWrite (d : CacheDir) (id : GoStr) (expiresAt : Nat) (b : Blob) :
    Except ExpErr CacheDir :=
  let purged := d.filter (fun e => ¬ globMatch (id ++ '.' :: ['*']) e.1)
  .ok (dirSet purged (expFileName id expiresAt) b)

/-- `ExpiringCache.Delete`: removes every file matching `<id>.*`. -/
def expDelete (d : CacheDir) (id : GoStr) : Except ExpErr CacheDir :=
  .ok (d.filter (fun e => ¬ globMatch (id ++ '.' :: ['*']) e.1))

/-- Counterexample to C6 as stated: the expiring cache does not reject the
empty id.  `Write("")` succeeds and creates the file `.100` (the file
system is touched), `Delete("")` succeeds, and `Read("")` returns the
generic no-item error, none of which is an invalid-id rejection. -/
theorem expiring_cache_no_blank_id_check :
    expWrite [] [] 100 [] = .ok [(expFileName [] 100, [])] ∧
    expDelete [] [] = .ok [] ∧
    (expRead [("abc.100".toList, [])] 50 []).1 = .error .noItem := by
  exact ⟨rfl, rfl, rfl⟩

/-- C6 (amended): the base cache used by the conversation cache rejects a
blank id with the invalid-id error on read, write and delete, without
touching the file system; the expiring cache has no such check — its
write and delete succeed for every id, blank included. -/
theorem cache_blank_id_policy (d : CacheDir) (init ms : List proto.Message)
    (id : GoStr) (expiresAt : Nat) (b : Blob) :
    conversationsRead d [] init = .error .invalidID ∧
    conversationsWrite d [] ms = .error .invalidID ∧
    cacheDelete d [] = .error .invalidID ∧
    expWrite d id expiresAt b =
      .ok (dirSet (d.filter (fun e => ¬ globMatch (id ++ '.' :: ['*']) e.1))
        (expFileName id expiresAt) b) ∧
    expDelete d id =
      .ok (d.filter (fun e => ¬ globMatch (id ++ '.' :: ['*']) e.1)) := by
  exact ⟨rfl, rfl, rfl, rfl, rfl⟩
